import Mathlib

/-!
Shallow embedding of the hospital-discharges dashboard (`src/app.py`).

A pandas DataFrame is modelled as a `Table`: a list of column names plus a
list of rows, where a row is an association list from column name to cell
value.  A cell is a string, a rational number (modelling the numeric dtypes)
or `missing` (modelling NaN / absent cells).  Pandas operations are
translated operation by operation from `app.py`; pandas behaviours that are
relevant to the claims (NaN propagation through `astype(str)`, the
`TypeError` that `pd.cut` raises on non-numeric data, NaN-skipping means,
the sample standard deviation `ddof = 1`) are modelled explicitly.
`preprocess` returns `Except String Table` because `pd.cut` can raise.
-/

namespace HospApp

/-- A cell value of the table: a string, a (rational) number standing for the
numeric dtypes of pandas, or a missing value (NaN). -/
inductive Val where
  | str (s : String)
  | num (q : ℚ)
  | missing
deriving DecidableEq, Repr

/-- A row is an association list from column name to cell value.  A column
that is present in the table but has no entry in the row holds a missing
cell. -/
abbrev Row := List (String × Val)

/-- A table: the list of column names together with the rows. -/
structure Table where
  cols : List String
  rows : List Row
deriving DecidableEq, Repr

/-- Read the cell of column `c` in row `r`; absent keys are missing (NaN). -/
def getCell (r : Row) (c : String) : Val :=
  match r.find? (fun kv => kv.1 == c) with
  | some kv => kv.2
  | none => Val.missing

/-- Write the cell of column `c` in row `r` (column assignment). -/
def setCell (r : Row) (c : String) (v : Val) : Row :=
  (c, v) :: r.filter (fun kv => kv.1 != c)

/-- Lookup in an association list keyed by strings (Python `dict` access,
`None` when the key is absent). -/
def lookupA {α : Type} (l : List (String × α)) (k : String) : Option α :=
  (l.find? (fun kv => kv.1 == k)).map (fun kv => kv.2)

/-- The alias table `COLUMN_MAP` of `app.py`, in its source order. -/
def COLUMN_MAP : List (String × List String) :=
  [("age", ["Age", "Patient_Age", "age"]),
   ("length_of_stay", ["Length_of_stay", "LOS", "length_of_stay", "LengthOfStay"]),
   ("charges", ["Total_Charges", "Charges", "TotalCharges", "Charge"]),
   ("diagnosis", ["Diagnosis_Code", "Diagnosis", "Diag", "DiagnosisCode"]),
   ("facility", ["Facility", "Hospital", "Hospital_Name"]),
   ("county", ["County", "Region", "State"]),
   ("payment", ["Payment_Type", "Payment", "Payer"]),
   ("severity", ["Severity", "Severity_Level", "DRG_Severity"])]

/-- Python's `str.lower`, modelled characterwise (ASCII lowering). -/
def lowerStr (s : String) : String :=
  String.mk (s.toList.map Char.toLower)

/-- First loop of `map_columns`: the first alias (in listed priority order)
that occurs verbatim among the source columns. -/
def exactMatch (cols opts : List String) : Option String :=
  opts.find? (fun o => cols.contains o)

/-- Fallback loop of `map_columns`: the first source column (in table column
order) whose lowercased name occurs among the lowercased aliases. -/
def ciMatch (cols opts : List String) : Option String :=
  cols.find? (fun c => (opts.map lowerStr).contains (lowerStr c))

/-- Resolution of one canonical field against the source columns: exact match
first, case-insensitive scan as fallback (`map_columns` body). -/
def findMatch (cols opts : List String) : Option String :=
  match exactMatch cols opts with
  | some o => some o
  | none => ciMatch cols opts

/-- The `found` dictionary built by `map_columns`: canonical field name to
matched source column name, fields with no match absent. -/
def map_columns (cols : List String) : List (String × String) :=
  COLUMN_MAP.filterMap (fun kv => (findMatch cols kv.2).map (fun c => (kv.1, c)))

/-- The renaming applied by `df.rename(columns=std)`: a matched source column
name becomes its canonical field name, anything else is kept. -/
def renameCol (mapped : List (String × String)) (c : String) : String :=
  match mapped.find? (fun kv => kv.2 == c) with
  | some kv => kv.1
  | none => c

/-- Rename the table's columns (and the keys of every row) to canonical
names. -/
def renameTable (t : Table) (mapped : List (String × String)) : Table :=
  { cols := t.cols.map (renameCol mapped),
    rows := t.rows.map (fun r => r.map (fun kv => (renameCol mapped kv.1, kv.2))) }

/-- Numeric value of a list of decimal digit characters. -/
def natFromDigits (cs : List Char) : Nat :=
  cs.foldl (fun a c => 10 * a + (c.toNat - 48)) 0

/-- Parse an unsigned decimal literal, optionally with a fractional part.
Models the numeric strings accepted by `pd.to_numeric` (the scientific
notation accepted by pandas is not needed by any claim and is omitted). -/
def parseUnsigned (cs : List Char) : Option ℚ :=
  match cs.span (fun c => c.isDigit) with
  | (intp, []) =>
      if intp.isEmpty then none else some ((natFromDigits intp : ℚ))
  | (intp, '.' :: fracp) =>
      if fracp.all (fun c => c.isDigit) && !(intp.isEmpty && fracp.isEmpty) then
        some ((natFromDigits intp : ℚ) +
          (natFromDigits fracp : ℚ) / ((10 : ℚ) ^ fracp.length))
      else none
  | _ => none

/-- Parse a signed decimal string after stripping surrounding whitespace,
as `pd.to_numeric` does; `none` is the NaN produced by `errors="coerce"`. -/
def parseNum (s : String) : Option ℚ :=
  match ((s.toList.dropWhile Char.isWhitespace).reverse.dropWhile
      Char.isWhitespace).reverse with
  | '-' :: rest => (parseUnsigned rest).map (fun q => -q)
  | '+' :: rest => parseUnsigned rest
  | cs => parseUnsigned cs

/-- One cell under `pd.to_numeric(errors="coerce")`: numbers survive,
parseable strings become numbers, everything else becomes NaN. -/
def toNumericVal : Val → Val
  | Val.num q => Val.num q
  | Val.str s =>
      match parseNum s with
      | some q => Val.num q
      | none => Val.missing
  | Val.missing => Val.missing

/-- The helper `safe_cast_numeric`: coerce a column to numeric when it is
present, leave the table unchanged otherwise. -/
def safe_cast_numeric (t : Table) (col : String) : Table :=
  if t.cols.contains col then
    { t with rows := t.rows.map (fun r =>
        r.map (fun kv => if kv.1 == col then (kv.1, toNumericVal kv.2) else kv)) }
  else t

/-- The bucket assigned by `pd.cut(age, bins=[0,17,35,50,65,200],
include_lowest=True)`: right-closed intervals, the first one closed also on
the left, values outside `[0, 200]` unassigned (NaN). -/
def ageBucket (q : ℚ) : Option String :=
  if 0 ≤ q ∧ q ≤ 17 then some "0-17"
  else if 17 < q ∧ q ≤ 35 then some "18-35"
  else if 35 < q ∧ q ≤ 50 then some "36-50"
  else if 50 < q ∧ q ≤ 65 then some "51-65"
  else if 65 < q ∧ q ≤ 200 then some "65+"
  else none

/-- The `age_group` assignment of `preprocess`.  `pd.cut` compares every
value of the column with the numeric bin edges, so a string value in the
(never numerically coerced) `age` column raises a `TypeError`; otherwise the
`age_group` column is appended, missing ages yielding missing buckets. -/
def pd_cut_age (t : Table) : Except String Table :=
  if t.rows.any (fun r =>
      match getCell r "age" with
      | Val.str _ => true
      | _ => false) then
    Except.error "TypeError: pd.cut on non-numeric age values"
  else
    Except.ok
      { cols := t.cols ++ ["age_group"],
        rows := t.rows.map (fun r =>
          setCell r "age_group"
            (match getCell r "age" with
             | Val.num q =>
                 match ageBucket q with
                 | some lab => Val.str lab
                 | none => Val.missing
             | _ => Val.missing)) }

/-- Python's `str` applied to a cell, as `astype(str)` does elementwise.  A
missing cell (NaN) stringifies to the literal string "nan"; the rendering of
numbers is a decimal-style placeholder, which no claim exercises. -/
def pyStr : Val → String
  | Val.str s => s
  | Val.num q =>
      if q.den = 1 then toString q.num
      else toString q.num ++ "/" ++ toString q.den
  | Val.missing => "nan"

/-- `fillna(u)` on one cell: only missing cells are replaced. -/
def fillnaVal (u : String) : Val → Val
  | Val.missing => Val.str u
  | v => v

/-- The text-column cleanup of `preprocess`:
`df[c] = df[c].astype(str).fillna("Unknown")` for a column that is present.
After `astype(str)` no cell is missing any more, so the `fillna` never
fires. -/
def cleanTextCol (t : Table) (c : String) : Table :=
  if t.cols.contains c then
    { t with rows := t.rows.map (fun r =>
        setCell r c (fillnaVal "Unknown" (Val.str (pyStr (getCell r c))))) }
  else t

/-- The text fields cleaned by `preprocess`, in source order. -/
def textCols : List String :=
  ["diagnosis", "facility", "county", "payment", "severity"]

/-- `df.dropna(subset=["length_of_stay"])`, applied only when the column is
present. -/
def dropna_los (t : Table) : Table :=
  if t.cols.contains "length_of_stay" then
    { t with rows := t.rows.filter (fun r =>
        match getCell r "length_of_stay" with
        | Val.missing => false
        | _ => true) }
  else t

/-- First half of `preprocess`: map and rename the columns, then coerce
`length_of_stay` and `charges` to numeric.  (The Python code also pads the
`mapped` dictionary with `None` entries for unmatched fields; those entries
are skipped when the rename map is built, so they are not modelled.) -/
def preprocessCast (t : Table) : Table :=
  safe_cast_numeric
    (safe_cast_numeric (renameTable t (map_columns t.cols)) "length_of_stay")
    "charges"

/-- The full `preprocess` of `app.py`: after the renaming and numeric casts,
derive `age_group` when `age` is present (this is the step that can raise),
stringify the text columns, and drop the rows with missing
`length_of_stay`. -/
def preprocess (t : Table) : Except String Table :=
  match
    (if (preprocessCast t).cols.contains "age" then pd_cut_age (preprocessCast t)
     else Except.ok (preprocessCast t))
  with
  | Except.error e => Except.error e
  | Except.ok t4 => Except.ok (dropna_los (textCols.foldl cleanTextCol t4))

/-- A scalar produced by `compute_metrics`: Python's `None`, a float NaN, or
a finite number. -/
inductive PyVal where
  | pnone
  | pnan
  | pnum (q : ℚ)
deriving DecidableEq, Repr

/-- The non-missing numeric values of a column, in row order (what the
NaN-skipping pandas reductions operate on). -/
def numCells (t : Table) (c : String) : List ℚ :=
  t.rows.filterMap (fun r =>
    match getCell r c with
    | Val.num q => some q
    | _ => none)

/-- Plain rational mean of a list (used only where pandas has at least one
value). -/
def meanQ (l : List ℚ) : ℚ :=
  l.sum / (l.length : ℚ)

/-- `Series.mean()`: NaN-skipping mean, NaN when no value remains. -/
def meanP (l : List ℚ) : PyVal :=
  if l.isEmpty then PyVal.pnan else PyVal.pnum (meanQ l)

/-- `Series.std()` (sample standard deviation, `ddof = 1`) is NaN for fewer
than two values; this returns the variance, whose square root the code's
threshold comparison uses. -/
def sampleVar (l : List ℚ) : Option ℚ :=
  if l.length < 2 then none
  else some (((l.map (fun x => (x - meanQ l) ^ 2)).sum) / ((l.length : ℚ) - 1))

/-- Decides `x > mean + sqrt var` over the rationals: as `sqrt var` is
nonnegative, the comparison holds exactly when `x` exceeds the mean and the
squared excess exceeds the variance (proved against `Real.sqrt` below). -/
def exceedsThresh (x mu v : ℚ) : Bool :=
  decide (mu < x) && decide (v < (x - mu) ^ 2)

/-- One row of `df["length_of_stay"] > thresh`: `False` whenever the
threshold is NaN (standard deviation undefined) or the row's value is
NaN. -/
def rowIsLong (t : Table) (r : Row) : Bool :=
  match sampleVar (numCells t "length_of_stay"), getCell r "length_of_stay" with
  | some v, Val.num x => exceedsThresh x (meanQ (numCells t "length_of_stay")) v
  | _, _ => false

/-- `(df["length_of_stay"] > thresh).mean() * 100`: the boolean column has no
NaN, so this is the share of `True` rows over all rows, NaN only for the
empty table. -/
def pct_long_stay_val (t : Table) : PyVal :=
  if t.rows.isEmpty then PyVal.pnan
  else PyVal.pnum (((t.rows.countP (fun r => rowIsLong t r) : ℚ) /
    (t.rows.length : ℚ)) * 100)

/-- `compute_metrics` of `app.py`, as the association list the Python dict
is: `avg_los` and `pct_long_stay` always get an entry (explicitly `None`
when `length_of_stay` is absent), `avg_charges` gets one only when `charges`
is present. -/
def compute_metrics (t : Table) : List (String × PyVal) :=
  (if t.cols.contains "length_of_stay" then
     [("avg_los", meanP (numCells t "length_of_stay")),
      ("pct_long_stay", pct_long_stay_val t)]
   else
     [("avg_los", PyVal.pnone), ("pct_long_stay", PyVal.pnone)]) ++
  (if t.cols.contains "charges" then
     [("avg_charges", meanP (numCells t "charges"))]
   else [])

/-- The group keys of `df.groupby("diagnosis")`: the distinct non-missing
values, in the sorted order the default `sort=True` produces.  In the
pipeline the diagnosis column has been coerced to string by `preprocess`, so
the keys are modelled as strings. -/
def diagKeys (t : Table) : List String :=
  ((t.rows.filterMap (fun r =>
      match getCell r "diagnosis" with
      | Val.str s => some s
      | _ => none)).dedup).insertionSort (fun a b => a.data ≤ b.data)

/-- The non-missing `length_of_stay` values of one diagnosis group. -/
def groupLos (t : Table) (d : String) : List ℚ :=
  (t.rows.filter (fun r => getCell r "diagnosis" == Val.str d)).filterMap
    (fun r =>
      match getCell r "length_of_stay" with
      | Val.num q => some q
      | _ => none)

/-- Boolean comparison behind `sort_values("length_of_stay",
ascending=False)`: larger means first, NaN means last. -/
def pvDescB (a b : String × PyVal) : Bool :=
  match a.2, b.2 with
  | PyVal.pnum x, PyVal.pnum y => decide (y ≤ x)
  | PyVal.pnum _, _ => true
  | _, PyVal.pnum _ => false
  | _, _ => true

/-- The sorting relation as a decidable proposition. -/
def pvDesc (a b : String × PyVal) : Prop :=
  pvDescB a b = true

instance : DecidableRel pvDesc :=
  fun a b => Bool.decEq (pvDescB a b) true

instance : IsTotal (String × PyVal) pvDesc := by
  constructor
  intro a b
  unfold pvDesc pvDescB
  rcases a with ⟨da, va⟩
  rcases b with ⟨db, vb⟩
  cases va <;> cases vb <;> simp
  exact le_total _ _

instance : IsTrans (String × PyVal) pvDesc := by
  constructor
  intro a b c hab hbc
  unfold pvDesc pvDescB at *
  rcases a with ⟨da, va⟩
  rcases b with ⟨db, vb⟩
  rcases c with ⟨dc, vc⟩
  cases va <;> cases vb <;> cases vc <;> simp at * <;> exact le_trans hbc hab

/-- `vis_avg_stay_by_diagnosis` of `app.py` (the data behind the chart):
mean `length_of_stay` per diagnosis group, sorted descending by that mean,
truncated to the first `top_n` groups; `none` when a required column is
absent. -/
def vis_avg_stay_by_diagnosis (t : Table) (top_n : Nat := 15) :
    Option (List (String × PyVal)) :=
  if t.cols.contains "diagnosis" && t.cols.contains "length_of_stay" then
    some ((((diagKeys t).map (fun d => (d, meanP (groupLos t d)))).insertionSort
      pvDesc).take top_n)
  else none

/-- `Series.isin(sel)` for one cell against a list of selected strings:
a missing cell (NaN) is never in the selection, and a numeric cell never
equals a string. -/
def isinVal (v : Val) (sel : List String) : Bool :=
  match v with
  | Val.str s => sel.contains s
  | _ => false

/-- One step of the filter loop of `main`
(`if v: df = df[df[k].isin(v)]`): an empty selection leaves the table
untouched, a non-empty one keeps the rows whose value is selected. -/
def applyFilter (t : Table) (k : String) (sel : List String) : Table :=
  if sel.isEmpty then t
  else { t with rows := t.rows.filter (fun r => isinVal (getCell r k) sel) }

/-- Input table witnessing the text-column defect: the first row has no
diagnosis value. -/
def c1Tbl : Table :=
  { cols := ["Diagnosis", "LOS"],
    rows := [[("LOS", Val.num 3)],
             [("Diagnosis", Val.str "A"), ("LOS", Val.num 2)]] }

/-- Input table with a non-numeric `age` column. -/
def c2Tbl : Table :=
  { cols := ["Age", "LOS"],
    rows := [[("Age", Val.str "forty"), ("LOS", Val.num 1)]] }

/-- Canonical single-row table with `length_of_stay` present. -/
def c3Tbl : Table :=
  { cols := ["length_of_stay"],
    rows := [[("length_of_stay", Val.num 5)]] }

/-- Canonical table with `length_of_stay = [1, 2, 3, 4, 100]` (the spec's
worked example). -/
def c3Tbl5 : Table :=
  { cols := ["length_of_stay"],
    rows := [[("length_of_stay", Val.num 1)],
             [("length_of_stay", Val.num 2)],
             [("length_of_stay", Val.num 3)],
             [("length_of_stay", Val.num 4)],
             [("length_of_stay", Val.num 100)]] }

/-- Input table with no column matching `length_of_stay`. -/
def c4Tbl : Table :=
  { cols := ["X"],
    rows := [[("X", Val.str "hi")]] }

/-- Input table whose `length_of_stay` column has one unparseable value. -/
def c4wTbl : Table :=
  { cols := ["LOS"],
    rows := [[("LOS", Val.num 2)], [("LOS", Val.str "bad")]] }

/-- Output of `preprocess` on `c4wTbl`: the unparseable row is dropped. -/
def c4OutTbl : Table :=
  { cols := ["length_of_stay"],
    rows := [[("length_of_stay", Val.num 2)]] }

/-- Input table with an age above the top bin edge 200. -/
def c5Tbl : Table :=
  { cols := ["Age", "LOS"],
    rows := [[("Age", Val.num 250), ("LOS", Val.num 1)]] }

/-- Canonical table without a `charges` column. -/
def c6Tbl : Table :=
  { cols := ["length_of_stay"],
    rows := [[("length_of_stay", Val.num 5)]] }

/-- Canonical table with a `charges` column. -/
def c6wTbl : Table :=
  { cols := ["charges"],
    rows := [[("charges", Val.num 10)], [("charges", Val.num 20)]] }

/-- Canonical table used to exercise the categorical filter. -/
def c7Tbl : Table :=
  { cols := ["facility"],
    rows := [[("facility", Val.str "A")], [("facility", Val.str "B")]] }

/-- Canonical table with three distinct diagnoses (one repeated). -/
def c9Tbl : Table :=
  { cols := ["diagnosis", "length_of_stay"],
    rows := [[("diagnosis", Val.str "A"), ("length_of_stay", Val.num 5)],
             [("diagnosis", Val.str "B"), ("length_of_stay", Val.num 10)],
             [("diagnosis", Val.str "C"), ("length_of_stay", Val.num 1)],
             [("diagnosis", Val.str "A"), ("length_of_stay", Val.num 5)]] }

/-- Input table whose only row has age 250, hence a missing `age_group`
after preprocessing. -/
def c10Tbl : Table :=
  { cols := ["Age", "LOS"],
    rows := [[("Age", Val.num 250), ("LOS", Val.num 7)]] }

/-- Output of `preprocess` on `c10Tbl`: the row survives (its
`length_of_stay` is present) but its `age_group` is missing. -/
def c10OutTbl : Table :=
  { cols := ["age", "length_of_stay", "age_group"],
    rows := [[("age_group", Val.missing), ("age", Val.num 250),
              ("length_of_stay", Val.num 7)]] }

/-- Finding an element after a prefix of failures. -/
lemma find?_append_first {α : Type} (p : α → Bool) (pre : List α) (x : α)
    (suf : List α) (hpre : ∀ y ∈ pre, p y = false) (hx : p x = true) :
    (pre ++ x :: suf).find? p = some x := by
  induction pre with
  | nil => simpa using List.find?_cons_of_pos suf hx
  | cons a l ih =>
    rw [List.cons_append, List.find?_cons_of_neg]
    · exact ih (fun y hy => hpre y (List.mem_cons_of_mem a hy))
    · simp [hpre a (List.mem_cons_self a l)]

/-- Non-membership makes `contains` false. -/
lemma contains_eq_false_of_not_mem {a : String} {l : List String} (h : a ∉ l) :
    l.contains a = false := by
  rw [Bool.eq_false_iff]
  intro hc
  exact h (List.elem_iff.mp hc)

/-- Membership makes `contains` true. -/
lemma contains_eq_true_of_mem {a : String} {l : List String} (h : a ∈ l) :
    l.contains a = true :=
  List.elem_iff.mpr h

/-- Association-list lookup skips a pair with a different key. -/
lemma lookupA_cons_of_ne {α : Type} (k' : String) (v : α) (l : List (String × α))
    (key : String) (h : k' ≠ key) : lookupA ((k', v) :: l) key = lookupA l key := by
  unfold lookupA
  rw [List.find?_cons_of_neg]
  simpa using h

/-- Association-list lookup finds the head pair with the right key. -/
lemma lookupA_cons_self {α : Type} (key : String) (v : α) (l : List (String × α)) :
    lookupA ((key, v) :: l) key = some v := by
  unfold lookupA
  rw [List.find?_cons_of_pos _ (by simp)]
  rfl

/-- A `map_columns`-style dictionary has no entry for a key absent from the
alias list. -/
lemma lookupA_filterMap_none (cols : List String) (key : String)
    (L : List (String × List String)) (h : ∀ kv ∈ L, kv.1 ≠ key) :
    lookupA (L.filterMap
      (fun kv => (findMatch cols kv.2).map (fun c => (kv.1, c)))) key = none := by
  induction L with
  | nil => rfl
  | cons a l ih =>
    rw [List.filterMap_cons]
    rcases hfm : findMatch cols a.2 with _ | c
    · exact ih (fun kv hkv => h kv (List.mem_cons_of_mem a hkv))
    · simp only [Option.map_some']
      rw [lookupA_cons_of_ne _ _ _ _ (h a (List.mem_cons_self a l))]
      exact ih (fun kv hkv => h kv (List.mem_cons_of_mem a hkv))

/-- The entry that `map_columns` produces for a canonical field is exactly
the result of resolving that field's own alias list. -/
lemma lookupA_map_columns_aux (cols : List String) (key : String)
    (opts : List String) :
    ∀ L : List (String × List String), (key, opts) ∈ L → (L.map Prod.fst).Nodup →
      lookupA (L.filterMap
        (fun kv => (findMatch cols kv.2).map (fun c => (kv.1, c)))) key =
        findMatch cols opts := by
  intro L
  induction L with
  | nil => intro h; cases h
  | cons a l ih =>
    intro hmem hnd
    rw [List.map_cons, List.nodup_cons] at hnd
    rw [List.filterMap_cons]
    rcases List.mem_cons.mp hmem with heq | hmem'
    · cases heq.symm
      rcases hfm : findMatch cols opts with _ | c
      · simp only [hfm, Option.map_none']
        refine lookupA_filterMap_none cols key l (fun kv hkv h => hnd.1 ?_)
        exact List.mem_map.mpr ⟨kv, hkv, h⟩
      · simp only [hfm, Option.map_some']
        exact lookupA_cons_self key c _
    · have hk : a.1 ≠ key := by
        intro h
        refine hnd.1 ?_
        rw [h]
        exact List.mem_map_of_mem Prod.fst hmem'
      rcases hfm : findMatch cols a.2 with _ | c
      · exact ih hmem' hnd.2
      · simp only [Option.map_some']
        rw [lookupA_cons_of_ne _ _ _ _ hk]
        exact ih hmem' hnd.2

/-- Specialisation to the actual alias table. -/
lemma lookupA_map_columns (cols : List String) (key : String)
    (opts : List String) (hk : (key, opts) ∈ COLUMN_MAP) :
    lookupA (map_columns cols) key = findMatch cols opts :=
  lookupA_map_columns_aux cols key opts COLUMN_MAP hk (by decide)

/-- Claim C1 (code bug): text fields are coerced to string, but a missing
source value stringifies to the literal "nan" before the dead
`fillna("Unknown")` runs, so it never becomes "Unknown".  On `c1Tbl` the row
with no diagnosis comes out as the string "nan". -/
theorem c1_missing_text_becomes_nan :
    (preprocess c1Tbl).map (fun u => u.rows.map (fun r => getCell r "diagnosis")) =
      Except.ok [Val.str "nan", Val.str "A"] ∧
    Val.str "nan" ≠ Val.str "Unknown" :=
  ⟨by rfl, by decide⟩

/-- Claim C2 (code bug): preprocessing is not total.  The `age` column is
never numerically coerced, so `pd.cut` raises a `TypeError` on the
non-numeric age value of `c2Tbl` instead of coercing it. -/
theorem c2_nonnumeric_age_raises :
    preprocess c2Tbl = Except.error "TypeError: pd.cut on non-numeric age values" :=
  by rfl

/-- Claim C3, counterexample: on a single-row table the standard deviation is
NaN, every comparison with the NaN threshold is `False`, and
`pct_long_stay` is the numeric percentage 0 — not `None`, not NaN. -/
theorem c3_single_row_counterexample :
    lookupA (compute_metrics c3Tbl) "pct_long_stay" = some (PyVal.pnum 0) ∧
    some (PyVal.pnum 0) ≠ some PyVal.pnan ∧
    some (PyVal.pnum 0) ≠ some PyVal.pnone := by
  refine ⟨?_, by decide, by decide⟩
  have h1 : lookupA (compute_metrics c3Tbl) "pct_long_stay" =
      some (PyVal.pnum (((c3Tbl.rows.countP (fun r => rowIsLong c3Tbl r) : ℚ) /
        (c3Tbl.rows.length : ℚ)) * 100)) := rfl
  have h2 : c3Tbl.rows.countP (fun r => rowIsLong c3Tbl r) = 0 := by decide
  rw [h1, h2]
  norm_num

/-- Claim C4, counterexample: when no source column resolves to
`length_of_stay`, no row is dropped — `c4Tbl` keeps its single row, whose
`length_of_stay` value is missing. -/
theorem c4_absent_los_counterexample :
    (preprocess c4Tbl).map
      (fun u => (u.rows.length, u.rows.map (fun r => getCell r "length_of_stay"))) =
      Except.ok (1, [Val.missing]) :=
  by rfl

/-- Claim C5, counterexample: an age above the top bin edge 200 (here 250)
falls outside every bucket of `pd.cut`, so its `age_group` is missing rather
than the claimed "65+" of an unbounded last cohort. -/
theorem c5_age_over_200_counterexample :
    (preprocess c5Tbl).map (fun u => u.rows.map (fun r => getCell r "age_group")) =
      Except.ok [Val.missing] ∧
    ∀ lab : String, Val.missing ≠ Val.str lab :=
  ⟨by rfl, fun _ h => Val.noConfusion h⟩

/-- Claim C6, counterexample: when `charges` is absent the metrics dict has
no `avg_charges` entry at all — the lookup yields `none` (no key), which is
not an entry mapped to Python's `None`. -/
theorem c6_absent_charges_counterexample :
    lookupA (compute_metrics c6Tbl) "avg_charges" = none ∧
    (none : Option PyVal) ≠ some PyVal.pnone :=
  ⟨by rfl, by decide⟩

/-- A cell passes `isin(sel)` exactly when it is the string of a selected
value. -/
lemma isinVal_iff (v : Val) (sel : List String) :
    isinVal v sel = true ↔ ∃ s ∈ sel, v = Val.str s := by
  cases v with
  | str s =>
    simp only [isinVal, Val.str.injEq]
    constructor
    · intro h
      exact ⟨s, List.elem_iff.mp h, rfl⟩
    · rintro ⟨s', hs', rfl⟩
      exact contains_eq_true_of_mem hs'
  | num q => simp [isinVal]
  | missing => simp [isinVal]

/-- Claim C8 (confirmed): per canonical field, resolution takes the first
alias in listed priority order that occurs verbatim among the source
columns; failing that, the first source column in table order whose name
matches some alias case-insensitively; failing both, the field is left
unmapped. -/
theorem c8_column_resolution (cols : List String) (key : String)
    (opts : List String) (hk : (key, opts) ∈ COLUMN_MAP) :
    (∀ pre o suf, opts = pre ++ o :: suf → o ∈ cols → (∀ p ∈ pre, p ∉ cols) →
      lookupA (map_columns cols) key = some o) ∧
    ((∀ o ∈ opts, o ∉ cols) →
      ∀ pre c suf, cols = pre ++ c :: suf →
        (∃ o ∈ opts, lowerStr o = lowerStr c) →
        (∀ c' ∈ pre, ¬ ∃ o ∈ opts, lowerStr o = lowerStr c') →
        lookupA (map_columns cols) key = some c) ∧
    ((∀ o ∈ opts, o ∉ cols) →
      (∀ c ∈ cols, ¬ ∃ o ∈ opts, lowerStr o = lowerStr c) →
      lookupA (map_columns cols) key = none) := by
  rw [lookupA_map_columns cols key opts hk]
  refine ⟨?_, ?_, ?_⟩
  · intro pre o suf hopts ho hpre
    subst hopts
    unfold findMatch exactMatch
    rw [find?_append_first _ pre o suf
      (fun y hy => contains_eq_false_of_not_mem (hpre y hy))
      (contains_eq_true_of_mem ho)]
  · intro hex pre c suf hcols hci hpre
    have hexact : exactMatch cols opts = none :=
      List.find?_eq_none.mpr (fun o ho => by
        show ¬ cols.contains o = true
        rw [Bool.not_eq_true]
        exact contains_eq_false_of_not_mem (hex o ho))
    unfold findMatch
    rw [hexact]
    unfold ciMatch
    subst hcols
    rw [find?_append_first _ pre c suf ?wrong ?right]
    case wrong =>
      intro y hy
      apply contains_eq_false_of_not_mem
      intro hmem
      rcases List.mem_map.mp hmem with ⟨o, ho, holow⟩
      exact hpre y hy ⟨o, ho, holow⟩
    case right =>
      apply contains_eq_true_of_mem
      rcases hci with ⟨o, ho, holow⟩
      exact List.mem_map.mpr ⟨o, ho, holow⟩
  · intro hex hnoci
    have hexact : exactMatch cols opts = none :=
      List.find?_eq_none.mpr (fun o ho => by
        show ¬ cols.contains o = true
        rw [Bool.not_eq_true]
        exact contains_eq_false_of_not_mem (hex o ho))
    have hcim : ciMatch cols opts = none := by
      refine List.find?_eq_none.mpr (fun c hc => ?_)
      simp only [Bool.not_eq_true]
      apply contains_eq_false_of_not_mem
      intro hmem
      rcases List.mem_map.mp hmem with ⟨o, ho, holow⟩
      exact hnoci c hc ⟨o, ho, holow⟩
    unfold findMatch
    rw [hexact, hcim]

/-- Witness for C8: on source columns `["Age", "los"]`, the field `age`
resolves exactly to "Age" and the field `length_of_stay` resolves
case-insensitively to "los". -/
theorem c8_column_resolution_witness :
    (("age", ["Age", "Patient_Age", "age"]) ∈ COLUMN_MAP) ∧
    lookupA (map_columns ["Age", "los"]) "age" = some "Age" ∧
    lookupA (map_columns ["Age", "los"]) "length_of_stay" = some "los" := by
  refine ⟨by decide, ?_, ?_⟩
  · exact (c8_column_resolution ["Age", "los"] "age" ["Age", "Patient_Age", "age"]
      (by decide)).1 [] "Age" ["Patient_Age", "age"] rfl (by decide) (by decide)
  · exact (c8_column_resolution ["Age", "los"] "length_of_stay"
      ["Length_of_stay", "LOS", "length_of_stay", "LengthOfStay"] (by decide)).2.1
      (by decide) ["Age"] "los" [] rfl (by decide) (by decide)

/-- Claim C7 (confirmed): filtering with an empty selection is the identity
on the table (no restriction at all), and a non-empty selection keeps
exactly the rows whose field value is one of the selected strings. -/
theorem c7_empty_filter_identity (t : Table) (k : String) (sel : List String) :
    applyFilter t k [] = t ∧
    (sel ≠ [] → ∀ r : Row,
      r ∈ (applyFilter t k sel).rows ↔
        r ∈ t.rows ∧ ∃ s ∈ sel, getCell r k = Val.str s) := by
  constructor
  · rfl
  · intro hsel r
    unfold applyFilter
    rw [if_neg (by simp only [List.isEmpty_iff]; exact hsel)]
    simp only [List.mem_filter]
    exact and_congr_right (fun _ => isinVal_iff (getCell r k) sel)

/-- Witness for C7: concrete filter on the facility column. -/
theorem c7_empty_filter_identity_witness :
    ((["A"] : List String) ≠ []) ∧
    ([("facility", Val.str "A")] ∈ (applyFilter c7Tbl "facility" ["A"]).rows ↔
      [("facility", Val.str "A")] ∈ c7Tbl.rows ∧
      ∃ s ∈ (["A"] : List String),
        getCell [("facility", Val.str "A")] "facility" = Val.str s) :=
  ⟨by decide, (c7_empty_filter_identity c7Tbl "facility" ["A"]).2 (by decide) _⟩

/-- Claim C10 (confirmed): a non-empty selection removes every row whose
value in the filtered field is missing, whatever the selection contains; in
particular the preprocessed row with age 250 has a missing `age_group` and
is removed by every non-empty age-group filter. -/
theorem c10_filter_drops_missing :
    (∀ (t : Table) (k : String) (sel : List String), sel ≠ [] →
      ∀ r ∈ (applyFilter t k sel).rows, getCell r k ≠ Val.missing) ∧
    (∀ sel : List String, sel ≠ [] → ∀ out : Table,
      preprocess c10Tbl = Except.ok out →
      (applyFilter out "age_group" sel).rows = []) := by
  constructor
  · intro t k sel hsel r hr heq
    unfold applyFilter at hr
    rw [if_neg (by simp only [List.isEmpty_iff]; exact hsel)] at hr
    have hp := (List.mem_filter.mp hr).2
    rw [heq] at hp
    simp [isinVal] at hp
  · intro sel hsel out hout
    have hpre : preprocess c10Tbl = Except.ok c10OutTbl := rfl
    rw [hpre] at hout
    cases Except.ok.inj hout
    unfold applyFilter
    rw [if_neg (by simp only [List.isEmpty_iff]; exact hsel)]
    have hg : getCell [("age_group", Val.missing), ("age", Val.num 250),
        ("length_of_stay", Val.num 7)] "age_group" = Val.missing := rfl
    simp only [c10OutTbl, List.filter_cons, hg]
    rfl

/-- Witness for C10: the general part applied to a concrete facility filter
and the age-250 part applied to the selection consisting of "65+". -/
theorem c10_filter_drops_missing_witness :
    ((["65+"] : List String) ≠ []) ∧
    getCell [("facility", Val.str "A")] "facility" ≠ Val.missing ∧
    (applyFilter c10OutTbl "age_group" ["65+"]).rows = [] := by
  refine ⟨by decide, ?_, ?_⟩
  · exact (c10_filter_drops_missing).1 c7Tbl "facility" ["A"] (by decide)
      [("facility", Val.str "A")] (by decide)
  · exact (c10_filter_drops_missing).2 ["65+"] (by decide) c10OutTbl (by rfl)

/-- Renaming does not change the number of rows. -/
lemma renameTable_rows_length (t : Table) (m : List (String × String)) :
    (renameTable t m).rows.length = t.rows.length := by
  simp [renameTable]

/-- Numeric casting keeps the column list. -/
lemma safe_cast_cols (t : Table) (col : String) :
    (safe_cast_numeric t col).cols = t.cols := by
  unfold safe_cast_numeric
  split <;> rfl

/-- Numeric casting keeps the number of rows. -/
lemma safe_cast_rows_length (t : Table) (col : String) :
    (safe_cast_numeric t col).rows.length = t.rows.length := by
  unfold safe_cast_numeric
  split <;> simp

/-- The cast stage keeps the number of rows. -/
lemma preprocessCast_rows_length (t : Table) :
    (preprocessCast t).rows.length = t.rows.length := by
  unfold preprocessCast
  rw [safe_cast_rows_length, safe_cast_rows_length, renameTable_rows_length]

/-- A successful `pd.cut` appends the `age_group` column and keeps the
rows. -/
lemma pd_cut_age_ok (t u : Table) (h : pd_cut_age t = Except.ok u) :
    u.cols = t.cols ++ ["age_group"] ∧ u.rows.length = t.rows.length := by
  unfold pd_cut_age at h
  split at h
  · cases h
  · have hu := Except.ok.inj h
    rw [← hu]
    exact ⟨rfl, by simp⟩

/-- Text cleanup keeps the column list. -/
lemma cleanTextCol_cols (t : Table) (c : String) :
    (cleanTextCol t c).cols = t.cols := by
  unfold cleanTextCol
  split <;> rfl

/-- Text cleanup keeps the number of rows. -/
lemma cleanTextCol_rows_length (t : Table) (c : String) :
    (cleanTextCol t c).rows.length = t.rows.length := by
  unfold cleanTextCol
  split <;> simp

/-- Folding the text cleanup over any column list keeps the column list. -/
lemma foldl_clean_cols : ∀ (l : List String) (t : Table),
    (l.foldl cleanTextCol t).cols = t.cols
  | [], _ => rfl
  | c :: l, t => by
    rw [List.foldl_cons, foldl_clean_cols l, cleanTextCol_cols]

/-- Folding the text cleanup keeps the number of rows. -/
lemma foldl_clean_rows_length : ∀ (l : List String) (t : Table),
    (l.foldl cleanTextCol t).rows.length = t.rows.length
  | [], _ => rfl
  | c :: l, t => by
    rw [List.foldl_cons, foldl_clean_rows_length l, cleanTextCol_rows_length]

/-- The final drop keeps the column list. -/
lemma dropna_los_cols (t : Table) : (dropna_los t).cols = t.cols := by
  unfold dropna_los
  split <;> rfl

/-- Every row surviving the final drop has a non-missing `length_of_stay`
(when the column is present, so the drop actually ran). -/
lemma dropna_mem (t : Table) (h : t.cols.contains "length_of_stay" = true)
    (r : Row) (hr : r ∈ (dropna_los t).rows) :
    getCell r "length_of_stay" ≠ Val.missing := by
  unfold dropna_los at hr
  rw [if_pos h] at hr
  have hp := (List.mem_filter.mp hr).2
  intro heq
  rw [heq] at hp
  cases hp

/-- Without a `length_of_stay` column the final drop is the identity. -/
lemma dropna_los_of_absent (t : Table)
    (h : t.cols.contains "length_of_stay" = false) : dropna_los t = t := by
  unfold dropna_los
  rw [h]
  rfl

/-- Claim C4 as amended: when a `length_of_stay` column was resolved, every
retained row has a non-missing `length_of_stay` (rows with a missing or
unparseable value are dropped); when no such column was resolved, nothing is
dropped and the row count is unchanged. -/
theorem c4_retained_rows_amended (t out : Table)
    (h : preprocess t = Except.ok out) :
    (out.cols.contains "length_of_stay" = true →
      ∀ r ∈ out.rows, getCell r "length_of_stay" ≠ Val.missing) ∧
    (out.cols.contains "length_of_stay" = false →
      out.rows.length = t.rows.length) := by
  unfold preprocess at h
  rcases hcut : (if (preprocessCast t).cols.contains "age"
      then pd_cut_age (preprocessCast t)
      else Except.ok (preprocessCast t)) with e | t4
  · rw [hcut] at h
    cases h
  · rw [hcut] at h
    have hout : dropna_los (textCols.foldl cleanTextCol t4) = out :=
      Except.ok.inj h
    subst hout
    have ht4len : t4.rows.length = t.rows.length := by
      by_cases hage : (preprocessCast t).cols.contains "age" = true
      · rw [if_pos hage] at hcut
        rw [(pd_cut_age_ok (preprocessCast t) t4 hcut).2]
        exact preprocessCast_rows_length t
      · rw [if_neg hage] at hcut
        rw [← Except.ok.inj hcut]
        exact preprocessCast_rows_length t
    constructor
    · intro hlos r hr
      rw [dropna_los_cols] at hlos
      exact dropna_mem _ hlos r hr
    · intro hlos
      rw [dropna_los_cols] at hlos
      rw [dropna_los_of_absent _ hlos, foldl_clean_rows_length]
      exact ht4len

/-- Witness for C4: a table whose `length_of_stay` column has one good and
one unparseable value keeps exactly the good row. -/
theorem c4_retained_rows_amended_witness :
    preprocess c4wTbl = Except.ok c4OutTbl ∧
    c4OutTbl.cols.contains "length_of_stay" = true ∧
    (∀ r ∈ c4OutTbl.rows, getCell r "length_of_stay" ≠ Val.missing) :=
  ⟨by rfl, by rfl,
    (c4_retained_rows_amended c4wTbl c4OutTbl (by rfl)).1 (by rfl)⟩

/-- Claim C5 as amended: for integer ages the five cohorts are [0,17],
[18,35], [36,50], [51,65] and [66,200] — the last cohort is capped by the
bin edge 200 rather than unbounded, and ages outside [0,200] fall in no
cohort (missing `age_group`). -/
theorem c5_age_buckets_amended (n : ℤ) :
    ((0 ≤ n ∧ n ≤ 17) → ageBucket (n : ℚ) = some "0-17") ∧
    ((18 ≤ n ∧ n ≤ 35) → ageBucket (n : ℚ) = some "18-35") ∧
    ((36 ≤ n ∧ n ≤ 50) → ageBucket (n : ℚ) = some "36-50") ∧
    ((51 ≤ n ∧ n ≤ 65) → ageBucket (n : ℚ) = some "51-65") ∧
    ((66 ≤ n ∧ n ≤ 200) → ageBucket (n : ℚ) = some "65+") ∧
    (200 < n → ageBucket (n : ℚ) = none) ∧
    (n < 0 → ageBucket (n : ℚ) = none) := by
  have c0 : (0 ≤ (n:ℚ) ∧ (n:ℚ) ≤ 17) ↔ (0 ≤ n ∧ n ≤ 17) := by
    constructor <;> rintro ⟨h1, h2⟩ <;> exact ⟨by exact_mod_cast h1, by exact_mod_cast h2⟩
  have c1 : (17 < (n:ℚ) ∧ (n:ℚ) ≤ 35) ↔ (17 < n ∧ n ≤ 35) := by
    constructor <;> rintro ⟨h1, h2⟩ <;> exact ⟨by exact_mod_cast h1, by exact_mod_cast h2⟩
  have c2 : (35 < (n:ℚ) ∧ (n:ℚ) ≤ 50) ↔ (35 < n ∧ n ≤ 50) := by
    constructor <;> rintro ⟨h1, h2⟩ <;> exact ⟨by exact_mod_cast h1, by exact_mod_cast h2⟩
  have c3 : (50 < (n:ℚ) ∧ (n:ℚ) ≤ 65) ↔ (50 < n ∧ n ≤ 65) := by
    constructor <;> rintro ⟨h1, h2⟩ <;> exact ⟨by exact_mod_cast h1, by exact_mod_cast h2⟩
  have c4 : (65 < (n:ℚ) ∧ (n:ℚ) ≤ 200) ↔ (65 < n ∧ n ≤ 200) := by
    constructor <;> rintro ⟨h1, h2⟩ <;> exact ⟨by exact_mod_cast h1, by exact_mod_cast h2⟩
  refine ⟨?_, ?_, ?_, ?_, ?_, ?_, ?_⟩ <;> intro hn
  · rw [ageBucket, if_pos (c0.mpr (by omega))]
  · rw [ageBucket, if_neg (fun hq => by have := c0.mp hq; omega),
      if_pos (c1.mpr (by omega))]
  · rw [ageBucket, if_neg (fun hq => by have := c0.mp hq; omega),
      if_neg (fun hq => by have := c1.mp hq; omega),
      if_pos (c2.mpr (by omega))]
  · rw [ageBucket, if_neg (fun hq => by have := c0.mp hq; omega),
      if_neg (fun hq => by have := c1.mp hq; omega),
      if_neg (fun hq => by have := c2.mp hq; omega),
      if_pos (c3.mpr (by omega))]
  · rw [ageBucket, if_neg (fun hq => by have := c0.mp hq; omega),
      if_neg (fun hq => by have := c1.mp hq; omega),
      if_neg (fun hq => by have := c2.mp hq; omega),
      if_neg (fun hq => by have := c3.mp hq; omega),
      if_pos (c4.mpr (by omega))]
  · rw [ageBucket, if_neg (fun hq => by have := c0.mp hq; omega),
      if_neg (fun hq => by have := c1.mp hq; omega),
      if_neg (fun hq => by have := c2.mp hq; omega),
      if_neg (fun hq => by have := c3.mp hq; omega),
      if_neg (fun hq => by have := c4.mp hq; omega)]
  · rw [ageBucket, if_neg (fun hq => by have := c0.mp hq; omega),
      if_neg (fun hq => by have := c1.mp hq; omega),
      if_neg (fun hq => by have := c2.mp hq; omega),
      if_neg (fun hq => by have := c3.mp hq; omega),
      if_neg (fun hq => by have := c4.mp hq; omega)]

/-- Witness for C5: the spec's sample ages 5, 20, 40, 60, 80 land in the
five cohorts in order. -/
theorem c5_age_buckets_amended_witness :
    ((0:ℤ) ≤ 5 ∧ (5:ℤ) ≤ 17) ∧
    ageBucket ((5:ℤ) : ℚ) = some "0-17" ∧
    ageBucket ((20:ℤ) : ℚ) = some "18-35" ∧
    ageBucket ((40:ℤ) : ℚ) = some "36-50" ∧
    ageBucket ((60:ℤ) : ℚ) = some "51-65" ∧
    ageBucket ((80:ℤ) : ℚ) = some "65+" := by
  refine ⟨⟨by decide, by decide⟩, ?_, ?_, ?_, ?_, ?_⟩
  · exact (c5_age_buckets_amended 5).1 ⟨by decide, by decide⟩
  · exact (c5_age_buckets_amended 20).2.1 ⟨by decide, by decide⟩
  · exact (c5_age_buckets_amended 40).2.2.1 ⟨by decide, by decide⟩
  · exact (c5_age_buckets_amended 60).2.2.2.1 ⟨by decide, by decide⟩
  · exact (c5_age_buckets_amended 80).2.2.2.2.1 ⟨by decide, by decide⟩

/-- The metrics dict always carries a `pct_long_stay` entry; when the column
is present it holds the computed percentage. -/
lemma compute_metrics_pct_present (t : Table)
    (h : t.cols.contains "length_of_stay" = true) :
    lookupA (compute_metrics t) "pct_long_stay" = some (pct_long_stay_val t) := by
  unfold compute_metrics
  rw [if_pos h, List.cons_append, lookupA_cons_of_ne _ _ _ _ (by decide),
    List.cons_append, lookupA_cons_self]

/-- When the column is absent the `pct_long_stay` entry holds `None`. -/
lemma compute_metrics_pct_absent (t : Table)
    (h : t.cols.contains "length_of_stay" = false) :
    lookupA (compute_metrics t) "pct_long_stay" = some PyVal.pnone := by
  unfold compute_metrics
  rw [if_neg (by rw [h]; exact Bool.false_ne_true), List.cons_append,
    lookupA_cons_of_ne _ _ _ _ (by decide), List.cons_append, lookupA_cons_self]

/-- Looking up `avg_charges` skips the two entries that are always present
and lands in the conditional tail. -/
lemma lookupA_metrics_charges (t : Table) :
    lookupA (compute_metrics t) "avg_charges" =
      lookupA (if t.cols.contains "charges" then
        [("avg_charges", meanP (numCells t "charges"))] else []) "avg_charges" := by
  unfold compute_metrics
  by_cases h : t.cols.contains "length_of_stay" = true
  · rw [if_pos h, List.cons_append, lookupA_cons_of_ne _ _ _ _ (by decide),
      List.cons_append, lookupA_cons_of_ne _ _ _ _ (by decide), List.nil_append]
  · rw [if_neg h, List.cons_append, lookupA_cons_of_ne _ _ _ _ (by decide),
      List.cons_append, lookupA_cons_of_ne _ _ _ _ (by decide), List.nil_append]

/-- The sample variance is nonnegative whenever it is defined. -/
lemma sampleVar_nonneg (l : List ℚ) (v : ℚ) (h : sampleVar l = some v) :
    0 ≤ v := by
  unfold sampleVar at h
  split_ifs at h with hlen
  have hv := Option.some.inj h
  subst hv
  apply div_nonneg
  · exact List.sum_nonneg (fun x hx => by
      rcases List.mem_map.mp hx with ⟨y, _, hy⟩
      rw [← hy]
      exact sq_nonneg _)
  · have h2 : (2:ℚ) ≤ (l.length : ℚ) := by
      exact_mod_cast Nat.not_lt.mp hlen
    linarith

/-- The rational test `exceedsThresh` decides exactly the real comparison
`x > mean + sqrt var` used for the long-stay threshold. -/
lemma exceedsThresh_iff (x mu v : ℚ) (hv : 0 ≤ v) :
    exceedsThresh x mu v = true ↔
      ((mu : ℝ) + Real.sqrt ((v : ℚ) : ℝ) < ((x : ℚ) : ℝ)) := by
  unfold exceedsThresh
  rw [Bool.and_eq_true, decide_eq_true_eq, decide_eq_true_eq]
  constructor
  · rintro ⟨h1, h2⟩
    have h1' : ((mu : ℚ) : ℝ) < ((x : ℚ) : ℝ) := by exact_mod_cast h1
    have h2' : ((v : ℚ) : ℝ) < (((x : ℚ) : ℝ) - ((mu : ℚ) : ℝ)) ^ 2 := by
      exact_mod_cast h2
    have hs : Real.sqrt ((v : ℚ) : ℝ) < ((x : ℚ) : ℝ) - ((mu : ℚ) : ℝ) :=
      (Real.sqrt_lt' (by linarith)).mpr h2'
    linarith
  · intro hr
    have hs0 : 0 ≤ Real.sqrt ((v : ℚ) : ℝ) := Real.sqrt_nonneg _
    have h1' : ((mu : ℚ) : ℝ) < ((x : ℚ) : ℝ) := by linarith
    have hs : Real.sqrt ((v : ℚ) : ℝ) < ((x : ℚ) : ℝ) - ((mu : ℚ) : ℝ) := by
      linarith
    have h2' := (Real.sqrt_lt'
      (by linarith : (0:ℝ) < ((x : ℚ) : ℝ) - ((mu : ℚ) : ℝ))).mp hs
    exact ⟨by exact_mod_cast h1', by exact_mod_cast h2'⟩

/-- Claim C3 as amended: `pct_long_stay` is `None` exactly when the column
is absent; when present it is 100 times the share of rows counted long; a
row is counted long (given at least two values, so the deviation is
defined) exactly when its stay exceeds `mean + sqrt(sample variance)` over
the reals; and for a single-row table the NaN threshold makes every
comparison `False`, so the result is the numeric percentage 0 rather than
`None`/NaN. -/
theorem c3_pct_long_stay_amended (t : Table) :
    (t.cols.contains "length_of_stay" = false →
      lookupA (compute_metrics t) "pct_long_stay" = some PyVal.pnone) ∧
    (t.cols.contains "length_of_stay" = true → t.rows ≠ [] →
      lookupA (compute_metrics t) "pct_long_stay" =
        some (PyVal.pnum (((t.rows.countP (fun r => rowIsLong t r) : ℚ) /
          (t.rows.length : ℚ)) * 100))) ∧
    (2 ≤ (numCells t "length_of_stay").length → ∀ r : Row,
      (rowIsLong t r = true ↔
        ∃ x v : ℚ, getCell r "length_of_stay" = Val.num x ∧
          sampleVar (numCells t "length_of_stay") = some v ∧
          ((meanQ (numCells t "length_of_stay") : ℝ) +
            Real.sqrt ((v : ℚ) : ℝ) < ((x : ℚ) : ℝ)))) ∧
    (t.cols.contains "length_of_stay" = true → t.rows.length = 1 →
      lookupA (compute_metrics t) "pct_long_stay" = some (PyVal.pnum 0)) := by
  refine ⟨compute_metrics_pct_absent t, ?_, ?_, ?_⟩
  · intro h hrows
    rw [compute_metrics_pct_present t h]
    unfold pct_long_stay_val
    rw [if_neg (by simp only [List.isEmpty_iff]; exact hrows)]
  · intro hn r
    have hsv : sampleVar (numCells t "length_of_stay") =
        some (((numCells t "length_of_stay").map
          (fun x => (x - meanQ (numCells t "length_of_stay")) ^ 2)).sum /
          (((numCells t "length_of_stay").length : ℚ) - 1)) := by
      unfold sampleVar
      rw [if_neg (by omega)]
    unfold rowIsLong
    rw [hsv]
    cases hg : getCell r "length_of_stay" with
    | num x =>
      rw [exceedsThresh_iff _ _ _ (sampleVar_nonneg _ _ hsv)]
      constructor
      · intro hlt
        exact ⟨x, _, rfl, rfl, hlt⟩
      · rintro ⟨x', v', hx, hv', hlt⟩
        rw [Val.num.injEq] at hx
        rw [← hx, ← Option.some.inj hv'] at hlt
        exact hlt
    | str s =>
      simp only [Bool.false_eq_true, false_iff]
      rintro ⟨x', v', hx, -, -⟩
      cases hx
    | missing =>
      simp only [Bool.false_eq_true, false_iff]
      rintro ⟨x', v', hx, -, -⟩
      cases hx
  · intro h hlen
    rw [compute_metrics_pct_present t h]
    unfold pct_long_stay_val
    rw [if_neg (by
      simp only [List.isEmpty_iff]
      intro hnil
      rw [hnil] at hlen
      cases hlen)]
    have hle : (numCells t "length_of_stay").length ≤ t.rows.length := by
      unfold numCells
      exact List.length_filterMap_le _ _
    have hsv : sampleVar (numCells t "length_of_stay") = none := by
      unfold sampleVar
      rw [if_pos (by omega)]
    have hcount : t.rows.countP (fun r => rowIsLong t r) = 0 :=
      List.countP_eq_zero.mpr (fun r _ => by
        unfold rowIsLong
        rw [hsv]
        cases getCell r "length_of_stay" <;> simp)
    rw [hcount, hlen]
    norm_num

/-- Witness for C3: the spec's worked column `[1, 2, 3, 4, 100]` goes
through the percentage formula of the amended claim. -/
theorem c3_pct_long_stay_amended_witness :
    c3Tbl5.cols.contains "length_of_stay" = true ∧
    c3Tbl5.rows ≠ [] ∧
    lookupA (compute_metrics c3Tbl5) "pct_long_stay" =
      some (PyVal.pnum (((c3Tbl5.rows.countP (fun r => rowIsLong c3Tbl5 r) : ℚ) /
        (c3Tbl5.rows.length : ℚ)) * 100)) :=
  ⟨by rfl, by decide,
    (c3_pct_long_stay_amended c3Tbl5).2.1 (by rfl) (by decide)⟩

/-- Claim C6 as amended: `avg_charges` is the arithmetic mean of the
non-missing charges when the column is present, and when the column is
absent the metrics dict simply has no `avg_charges` key (a defaulting
lookup observes `None`, but no entry maps to `None`). -/
theorem c6_avg_charges_amended (t : Table) :
    (t.cols.contains "charges" = false →
      lookupA (compute_metrics t) "avg_charges" = none) ∧
    (t.cols.contains "charges" = true → numCells t "charges" ≠ [] →
      lookupA (compute_metrics t) "avg_charges" =
        some (PyVal.pnum ((numCells t "charges").sum /
          ((numCells t "charges").length : ℚ)))) := by
  constructor
  · intro h
    rw [lookupA_metrics_charges, if_neg (by rw [h]; exact Bool.false_ne_true)]
    rfl
  · intro h hne
    rw [lookupA_metrics_charges, if_pos h, lookupA_cons_self]
    unfold meanP meanQ
    rw [if_neg (by simp only [List.isEmpty_iff]; exact hne)]

/-- Witness for C6: two concrete charges rows take the mean-formula path. -/
theorem c6_avg_charges_amended_witness :
    c6wTbl.cols.contains "charges" = true ∧
    numCells c6wTbl "charges" ≠ [] ∧
    lookupA (compute_metrics c6wTbl) "avg_charges" =
      some (PyVal.pnum ((numCells c6wTbl "charges").sum /
        ((numCells c6wTbl "charges").length : ℚ))) :=
  ⟨by rfl, by decide, (c6_avg_charges_amended c6wTbl).2 (by rfl) (by decide)⟩

/-- Claim C9 (confirmed): the diagnosis chart data has one entry per
distinct diagnosis capped at 15 (so exactly 3 for 3 distinct diagnoses),
sorted descending by the group's mean length of stay, and every entry
carries the mean `length_of_stay` of its diagnosis group. -/
theorem c9_top_diagnoses (t : Table)
    (h1 : t.cols.contains "diagnosis" = true)
    (h2 : t.cols.contains "length_of_stay" = true) :
    ∃ l : List (String × PyVal),
      vis_avg_stay_by_diagnosis t 15 = some l ∧
      l.length = min (diagKeys t).length 15 ∧
      List.Pairwise (fun a b => ∀ x y : ℚ,
        a.2 = PyVal.pnum x → b.2 = PyVal.pnum y → y ≤ x) l ∧
      (∀ p ∈ l, p.1 ∈ diagKeys t ∧ p.2 = meanP (groupLos t p.1)) ∧
      ((diagKeys t).length = 3 → l.length = 3) := by
  have hcond : (t.cols.contains "diagnosis" &&
      t.cols.contains "length_of_stay") = true := by
    rw [h1, h2]
    rfl
  refine ⟨(((diagKeys t).map (fun d => (d, meanP (groupLos t d)))).insertionSort
      pvDesc).take 15, ?_, ?_, ?_, ?_, ?_⟩
  · unfold vis_avg_stay_by_diagnosis
    rw [if_pos hcond]
  · rw [List.length_take, List.length_insertionSort, List.length_map]
    exact Nat.min_comm 15 (diagKeys t).length
  · have hs : List.Sorted pvDesc
        (((diagKeys t).map (fun d => (d, meanP (groupLos t d)))).insertionSort
          pvDesc) :=
      List.sorted_insertionSort pvDesc _
    have hp := List.Pairwise.sublist (List.take_sublist 15 _) hs
    refine List.Pairwise.imp ?_ hp
    intro a b hab
    intro x y hax hby
    unfold pvDesc pvDescB at hab
    rw [hax, hby] at hab
    exact of_decide_eq_true hab
  · intro p hp
    have hp' := List.mem_of_mem_take hp
    rw [List.mem_insertionSort] at hp'
    rcases List.mem_map.mp hp' with ⟨d, hd, rfl⟩
    exact ⟨hd, rfl⟩
  · intro h3
    rw [List.length_take, List.length_insertionSort, List.length_map, h3]
    omega

/-- Witness for C9: the three-diagnosis table `c9Tbl` (means 5, 10, 1)
produces exactly the three rows B, A, C in descending order of mean stay. -/
theorem c9_top_diagnoses_witness :
    c9Tbl.cols.contains "diagnosis" = true ∧
    c9Tbl.cols.contains "length_of_stay" = true ∧
    vis_avg_stay_by_diagnosis c9Tbl 15 =
      some [("B", PyVal.pnum 10), ("A", PyVal.pnum 5), ("C", PyVal.pnum 1)] ∧
    (∃ l : List (String × PyVal),
      vis_avg_stay_by_diagnosis c9Tbl 15 = some l ∧
      l.length = min (diagKeys c9Tbl).length 15 ∧
      List.Pairwise (fun a b => ∀ x y : ℚ,
        a.2 = PyVal.pnum x → b.2 = PyVal.pnum y → y ≤ x) l ∧
      (∀ p ∈ l, p.1 ∈ diagKeys c9Tbl ∧ p.2 = meanP (groupLos c9Tbl p.1)) ∧
      ((diagKeys c9Tbl).length = 3 → l.length = 3)) := by
  refine ⟨by rfl, by rfl, ?_, c9_top_diagnoses c9Tbl (by rfl) (by rfl)⟩
  have hA : meanP (groupLos c9Tbl "A") = PyVal.pnum 5 := by
    rw [show groupLos c9Tbl "A" = [5, 5] from rfl]
    unfold meanP meanQ
    rw [if_neg (by decide)]
    norm_num
  have hB : meanP (groupLos c9Tbl "B") = PyVal.pnum 10 := by
    rw [show groupLos c9Tbl "B" = [10] from rfl]
    unfold meanP meanQ
    rw [if_neg (by decide)]
    norm_num
  have hC : meanP (groupLos c9Tbl "C") = PyVal.pnum 1 := by
    rw [show groupLos c9Tbl "C" = [1] from rfl]
    unfold meanP meanQ
    rw [if_neg (by decide)]
    norm_num
  have hmap : (diagKeys c9Tbl).map (fun d => (d, meanP (groupLos c9Tbl d))) =
      [("A", PyVal.pnum 5), ("B", PyVal.pnum 10), ("C", PyVal.pnum 1)] := by
    rw [show diagKeys c9Tbl = ["A", "B", "C"] from rfl]
    simp only [List.map_cons, List.map_nil, hA, hB, hC]
  unfold vis_avg_stay_by_diagnosis
  rw [if_pos (by rfl), hmap]
  decide

end HospApp
